import Mathlib

/-!
Verification of the LingoSync translation UI core logic: the debounced
streaming-translation pipeline and the bounded history cache.

The definitions below are a shallow embedding of the TypeScript source:
history-cache operations come from App.saveToHistory and the history-load
effect, the debounce model from the App debounce useEffect, the streaming
orchestration from App.performTranslation together with
translateTextStream, and the structured translation call from
translateText in the service module.
-/

namespace LingoSync

/-- The falsiness test text.trim() used throughout the source: true when
the string is empty or consists only of whitespace. -/
def isBlank (s : String) : Bool := s.data.all Char.isWhitespace

/-- A history entry, mirroring the HistoryItem record: an id, a creation
timestamp, the language pair and the translated text. -/
structure HistoryItem where
  id : String
  timestamp : Nat
  sourceLanguage : String
  targetLanguage : String
  translatedText : String
deriving DecidableEq

/-- The adjacent-duplicate check in saveToHistory:
prev.length greater than 0 and prev[0].translatedText equals translated. -/
def headDup : List HistoryItem → String → Bool
  | [], _ => false
  | h :: _, t => h.translatedText == t

/-- saveToHistory from the App component: no-op when the translated text or
the source text is whitespace-only, or when the head entry already holds the
same translated text; otherwise prepend a fresh entry and keep the first 10.
The fresh id and timestamp are passed in explicitly (the source draws them
from crypto.randomUUID and Date.now). -/
def saveToHistory (text translated sLang tLang id : String) (ts : Nat)
    (prev : List HistoryItem) : List HistoryItem :=
  if isBlank translated || isBlank text then prev
  else if headDup prev translated then prev
  else (({ id := id, timestamp := ts, sourceLanguage := sLang,
           targetLanguage := tLang, translatedText := translated } : HistoryItem)
         :: prev).take 10

/-- One record operation: the arguments of a saveToHistory call. -/
structure RecordOp where
  text : String
  translated : String
  sLang : String
  tLang : String
  id : String
  ts : Nat

/-- The entry a non-skipped record operation creates. -/
def RecordOp.item (op : RecordOp) : HistoryItem :=
  { id := op.id, timestamp := op.ts, sourceLanguage := op.sLang,
    targetLanguage := op.tLang, translatedText := op.translated }

/-- Apply one record operation to the history list. -/
def applyRecord (st : List HistoryItem) (op : RecordOp) : List HistoryItem :=
  saveToHistory op.text op.translated op.sLang op.tLang op.id op.ts st

/-- Apply a sequence of record operations, oldest first. -/
def applyRecords (st : List HistoryItem) (ops : List RecordOp) : List HistoryItem :=
  ops.foldl applyRecord st

/-- Most-recent-first ordering: along the list, each entry's timestamp is
at least the next entry's timestamp. -/
def mostRecentFirst (st : List HistoryItem) : Prop :=
  List.Chain' (fun a b => b.timestamp ≤ a.timestamp) st

/-- Every entry of the list was created no later than time t. -/
def boundedBy (t : Nat) (st : List HistoryItem) : Prop :=
  ∀ h ∈ st, h.timestamp ≤ t

/-- Timestamps of a sequence of record operations never decrease, starting
from a lower bound t (Date.now is monotone across the calls). -/
def opsMonotone : Nat → List RecordOp → Prop
  | _, [] => True
  | t, op :: rest => t ≤ op.ts ∧ opsMonotone op.ts rest

/-- The history-load effect of the App component: read the stored string
under the fixed key; a missing or empty value leaves the initial empty
list; a present value is parsed, a parse failure is caught and leaves the
empty list; a parsed list is installed as-is, with no truncation. The JSON
parse itself is the platform's and is passed in as a function returning
none exactly when it throws. -/
def loadHistory : Option String → (String → Option (List HistoryItem)) →
    List HistoryItem
  | none, _ => []
  | some s, parse =>
    if s.isEmpty then []
    else
      match parse s with
      | none => []
      | some l => l

/-! ### Debounce model (App debounce useEffect)

The App component holds inputText, translatedText, sourceLang, targetLang,
isTranslating, error and a single timeout handle. The useEffect with
dependencies [inputText, sourceLang, targetLang] re-runs after any of the
three changes: it clears the previous timeout, and either clears the output
state (blank input) or schedules performTranslation after 800 ms with the
current input and language pair captured in the closure. -/

/-- The one scheduled timeout: the closure captures the input text and the
language pair current when the effect ran. -/
structure PendingTimer where
  text : String
  sourceLang : String
  targetLang : String
deriving DecidableEq

/-- A performTranslation invocation issued when a timer fires: the text and
the language pair it translates with. -/
structure TranslationCall where
  text : String
  sourceLang : String
  targetLang : String
deriving DecidableEq

/-- The App component state observed by the debounce logic, plus a log of
the translation calls issued so far. -/
structure AppState where
  inputText : String
  translatedText : String
  sourceLang : String
  targetLang : String
  isTranslating : Bool
  error : Option String
  pending : Option PendingTimer
  calls : List TranslationCall
deriving DecidableEq

/-- A user change event: editing the input text or picking a source or
target language. -/
inductive Event where
  | setInput (s : String)
  | setSource (s : String)
  | setTarget (s : String)
deriving DecidableEq

/-- The body of the debounce useEffect: clear any pending timeout; if the
trimmed input is blank, clear the output text and the in-flight flag and
schedule nothing; otherwise schedule a translation of the current input
with the current language pair after the 800 ms quiet period. -/
def debounceEffect (st : AppState) : AppState :=
  let st1 := { st with pending := none }
  if isBlank st1.inputText then
    { st1 with translatedText := "", isTranslating := false }
  else
    { st1 with pending := some { text := st1.inputText,
                                 sourceLang := st1.sourceLang,
                                 targetLang := st1.targetLang } }

/-- Process one change event: update the changed field and re-run the
debounce effect. Setting a state field to its current value does not
re-render, so the effect does not re-run and the state is unchanged. -/
def stepEvent (st : AppState) : Event → AppState
  | .setInput s =>
    if s = st.inputText then st else debounceEffect { st with inputText := s }
  | .setSource s =>
    if s = st.sourceLang then st else debounceEffect { st with sourceLang := s }
  | .setTarget s =>
    if s = st.targetLang then st else debounceEffect { st with targetLang := s }

/-- Process a sequence of change events in order. -/
def runEvents (st : AppState) (es : List Event) : AppState :=
  es.foldl stepEvent st

/-- The quiet period elapses with no further event: the pending timer, if
any, fires and issues its translation call. -/
def elapse (st : AppState) : AppState :=
  match st.pending with
  | none => st
  | some p =>
    { st with pending := none,
              calls := st.calls ++ [{ text := p.text, sourceLang := p.sourceLang,
                                      targetLang := p.targetLang }] }

/-- The App state right after mount: empty input, empty output, auto source,
Spanish target, not translating, no error; the mount run of the effect sees
blank input and schedules nothing. -/
def initState : AppState :=
  debounceEffect { inputText := "", translatedText := "", sourceLang := "auto",
                   targetLang := "es", isTranslating := false, error := none,
                   pending := none, calls := [] }

/-- handleSwapLanguages from the App component: a guard returns immediately
when the source language is the auto sentinel; otherwise the language codes
are exchanged and the input and output texts are exchanged. -/
def handleSwapLanguages (st : AppState) : AppState :=
  if st.sourceLang = "auto" then st
  else { st with sourceLang := st.targetLang, targetLang := st.sourceLang,
                 inputText := st.translatedText, translatedText := st.inputText }

/-! ### Streaming translation (performTranslation and translateTextStream)

translateTextStream iterates over the response stream and invokes onChunk
with chunk.text for each chunk whose text is present and non-empty.
performTranslation accumulates the delivered chunks into a closure variable
fullText, republishes the running total after every chunk, and on success
hands the final text to saveToHistory; a failure sets the error message
unless its name is AbortError; the in-flight flag is cleared either way. -/

/-- The slice of App state performTranslation mutates. -/
structure TransState where
  translatedText : String
  isTranslating : Bool
  error : Option String
  history : List HistoryItem
deriving DecidableEq

/-- The chunks translateTextStream hands to onChunk: from the raw stream
(each raw chunk has an optional text field) it forwards exactly the present,
non-empty texts, in order. -/
def translateTextStreamDeliver (raw : List (Option String)) : List String :=
  raw.filterMap fun c =>
    match c with
    | none => none
    | some t => if t.isEmpty then none else some t

/-- The onChunk loop of performTranslation: starting from the accumulated
fullText, append each delivered chunk and republish the running total as
the displayed translated text. Returns the final fullText and state. -/
def applyChunks : String → List String → TransState → String × TransState
  | full, [], st => (full, st)
  | full, c :: cs, st =>
    applyChunks (full ++ c) cs { st with translatedText := full ++ c }

/-- How a streaming call settles: normal completion, or a rejection
carrying an error name and message. -/
inductive StreamResult where
  | success
  | failure (name : String) (message : String)
deriving DecidableEq

/-- The state set up at the top of the try block of performTranslation:
in-flight flag raised, error cleared, previous translation cleared. -/
def startTranslation (st : TransState) : TransState :=
  { st with isTranslating := true, error := none, translatedText := "" }

/-- performTranslation from the App component, for one call that runs to
settlement without a competing call: blank text clears the output and
returns; otherwise the in-flight flag is set, error and output cleared,
the delivered chunks accumulated and republished one by one; on success
the final text goes to saveToHistory; on failure the error message is set
unless the error name is AbortError, with a fixed fallback message when
the error message is empty; finally the in-flight flag is cleared. -/
def performTranslation (text sLang tLang id : String) (ts : Nat)
    (chunks : List String) (res : StreamResult) (st : TransState) : TransState :=
  if isBlank text then { st with translatedText := "" }
  else
    let full := (applyChunks "" chunks (startTranslation st)).1
    let st2 := (applyChunks "" chunks (startTranslation st)).2
    let st3 :=
      match res with
      | .success =>
        { st2 with history := saveToHistory text full sLang tLang id ts st2.history }
      | .failure name msg =>
        if name = "AbortError" then st2
        else
          let m := if msg.isEmpty then "Translation failed. Please try again." else msg
          { st2 with error := some m }
    { st3 with isTranslating := false }

/-! ### Interleaved streams (concurrency of overlapping calls)

When a second performTranslation call starts while an earlier stream is
still delivering chunks, both onChunk closures stay live: each holds its
own fullText accumulator, and each chunk callback unconditionally writes
its accumulator to the shared translated text. The declared
translationIdRef is never read or written, so no request identity is ever
compared before a write. -/

/-- Shared App state plus the per-request fullText accumulators (one per
live performTranslation closure, indexed by request number). -/
structure StreamMachine where
  translatedText : String
  isTranslating : Bool
  error : Option String
  acc : Nat → String

/-- An observable step of overlapping streaming calls: a request entering
its try block, or one delivered chunk arriving for a given request. -/
inductive StreamEv where
  | start (r : Nat)
  | chunk (r : Nat) (c : String)

/-- One step of the interleaved execution. starting request r runs the top
of performTranslation (flag up, error and output cleared, fresh empty
accumulator); a chunk for request r appends to the accumulator of r and
unconditionally republishes it as the displayed translated text, exactly
as the onChunk callback does, with no staleness check. -/
def streamStep (m : StreamMachine) : StreamEv → StreamMachine
  | .start r =>
    { m with isTranslating := true, error := none, translatedText := "",
             acc := fun r2 => if r2 = r then "" else m.acc r2 }
  | .chunk r c =>
    { m with translatedText := m.acc r ++ c,
             acc := fun r2 => if r2 = r then m.acc r ++ c else m.acc r2 }

/-- Run a schedule of interleaved stream events. -/
def runStream (m : StreamMachine) (evs : List StreamEv) : StreamMachine :=
  evs.foldl streamStep m

/-- The machine before any call starts. -/
def initMachine : StreamMachine :=
  { translatedText := "", isTranslating := false, error := none, acc := fun _ => "" }

/-! ### Structured translation call (translateText)

translateText parses JSON.parse(response.text or the empty-object literal
when the text is falsy) and returns an object whose translatedText field is
whatever the parsed payload held, possibly absent; the call fails when
JSON.parse throws, and also when the parse yields the null value, on which
the subsequent property access result.translatedText throws a TypeError. -/

/-- A parsed JSON payload as translateText then observes it through
property access: the null value, on which reading any property throws; or
any non-null value together with what reading its translatedText and
detectedLanguage properties yields (absent — undefined — when the value is
not an object or the object lacks the field). -/
inductive JsValue where
  | null
  | nonNull (translatedText : Option String) (detectedLanguage : Option String)
deriving DecidableEq

/-- The runtime shape of the value translateText resolves with; the
translatedText field is copied from the parsed payload and so may be
absent despite the declared type. -/
structure TranslationResult where
  translatedText : Option String
  detectedLanguage : Option String
  sourceLanguage : String
  targetLanguage : String
deriving DecidableEq

/-- translateText from the service module: take the response text (empty
when the model returned none), substitute the empty-object literal when it
is empty, JSON.parse it (the platform parse is passed in, returning none
exactly when it throws, and parsing the empty-object literal yields the
fieldless non-null object), and build the result by reading the
translatedText and detectedLanguage properties of the parsed value plus
the requested language pair. A parse throw rejects the call; a parse
yielding null also rejects it, because the property access
result.translatedText throws a TypeError on null. -/
def translateText (sLang tLang : String) (responseText : String)
    (parse : String → Option JsValue) : Except String TranslationResult :=
  let parsed := if responseText.isEmpty then some (.nonNull none none)
                else parse responseText
  match parsed with
  | none => .error "SyntaxError: unparsable response payload"
  | some .null => .error "TypeError: cannot read properties of null"
  | some (.nonNull t d) =>
    .ok { translatedText := t, detectedLanguage := d,
          sourceLanguage := sLang, targetLanguage := tLang }

end LingoSync

namespace LingoSync

/-- The combined invariant carried along a sequence of record operations:
bounded length, most-recent-first order, and all timestamps at most t. -/
def histInv (t : Nat) (st : List HistoryItem) : Prop :=
  st.length ≤ 10 ∧ mostRecentFirst st ∧ boundedBy t st

theorem applyRecord_histInv {t : Nat} {st : List HistoryItem} {op : RecordOp}
    (h : histInv t st) (hts : t ≤ op.ts) : histInv op.ts (applyRecord st op) := by
  obtain ⟨hlen, hord, hbnd⟩ := h
  have hbnd2 : boundedBy op.ts st := fun x hx => le_trans (hbnd x hx) hts
  unfold applyRecord saveToHistory
  split
  · exact ⟨hlen, hord, hbnd2⟩
  · split
    · exact ⟨hlen, hord, hbnd2⟩
    · refine ⟨?_, ?_, ?_⟩
      · rw [List.length_take]; exact Nat.min_le_left _ _
      · apply List.Chain'.take
        cases st with
        | nil => simp [mostRecentFirst]
        | cons x xs =>
          refine List.chain'_cons.mpr ⟨?_, hord⟩
          exact hbnd2 x (List.mem_cons_self x xs)
      · intro x hx
        have hx2 := List.mem_of_mem_take hx
        rcases List.mem_cons.mp hx2 with h1 | h2
        · subst h1; exact le_refl _
        · exact hbnd2 x h2

theorem applyRecords_histInv {t : Nat} {st : List HistoryItem} {ops : List RecordOp}
    (h : histInv t st) (hm : opsMonotone t ops) :
    ∃ t2, histInv t2 (applyRecords st ops) := by
  induction ops generalizing t st with
  | nil => exact ⟨t, h⟩
  | cons op rest ih =>
    obtain ⟨hts, hrest⟩ := hm
    exact ih (applyRecord_histInv h hts) hrest

theorem opsMonotone_take : ∀ (ops : List RecordOp) (n t : Nat),
    opsMonotone t ops → opsMonotone t (ops.take n)
  | _, 0, _, _ => trivial
  | [], _ + 1, _, _ => trivial
  | op :: rest, n + 1, t, h => by
    rw [List.take_succ_cons]
    exact ⟨h.1, opsMonotone_take rest n op.ts h.2⟩

end LingoSync

/-- Claim C4: starting from any history list of length at most 10 that is
ordered most-recent-first with timestamps bounded by the current time,
applying any monotonically-timestamped sequence of record operations keeps,
after each operation, the length at most 10 and the most-recent-first
order; and whenever one record operation on a full (length-10) list
changes the list, the result is the fresh entry prepended with the oldest
(last) entry evicted. -/
theorem claim4_history_bounded_ordered_evicts_oldest
    (t0 : Nat) (init : List LingoSync.HistoryItem) (ops : List LingoSync.RecordOp)
    (hlen : init.length ≤ 10) (hord : LingoSync.mostRecentFirst init)
    (hbnd : LingoSync.boundedBy t0 init) (hmono : LingoSync.opsMonotone t0 ops) :
    (∀ n : Nat,
      (LingoSync.applyRecords init (ops.take n)).length ≤ 10 ∧
      LingoSync.mostRecentFirst (LingoSync.applyRecords init (ops.take n))) ∧
    (∀ (op : LingoSync.RecordOp) (st : List LingoSync.HistoryItem),
      st.length = 10 → LingoSync.applyRecord st op ≠ st →
      LingoSync.applyRecord st op = op.item :: st.dropLast) := by
  refine ⟨?_, ?_⟩
  · intro n
    obtain ⟨t2, h1, h2, _⟩ := LingoSync.applyRecords_histInv ⟨hlen, hord, hbnd⟩
      (LingoSync.opsMonotone_take ops n t0 hmono)
    exact ⟨h1, h2⟩
  intro op st hfull hchange
  unfold LingoSync.applyRecord LingoSync.saveToHistory at hchange ⊢
  by_cases hb : (LingoSync.isBlank op.translated || LingoSync.isBlank op.text) = true
  · rw [if_pos hb] at hchange
    exact absurd rfl hchange
  · rw [if_neg hb] at hchange ⊢
    by_cases hd : LingoSync.headDup st op.translated = true
    · rw [if_pos hd] at hchange
      exact absurd rfl hchange
    · rw [if_neg hd, List.dropLast_eq_take, hfull]
      have h9 : (10 : Nat) - 1 = 9 := rfl
      rw [h9, show (10 : Nat) = 9 + 1 from rfl, List.take_succ_cons]
      rfl

/-- Witness for C4 at a concrete input: one record operation on an empty
history yields a singleton list, bounded and ordered. -/
theorem claim4_witness :
    (∀ n : Nat,
      (LingoSync.applyRecords []
        ([{ text := "hi", translated := "salut", sLang := "en", tLang := "fr",
            id := "id1", ts := 5 }].take n)).length ≤ 10 ∧
      LingoSync.mostRecentFirst (LingoSync.applyRecords []
        ([{ text := "hi", translated := "salut", sLang := "en", tLang := "fr",
            id := "id1", ts := 5 }].take n))) ∧
    (∀ (op : LingoSync.RecordOp) (st : List LingoSync.HistoryItem),
      st.length = 10 → LingoSync.applyRecord st op ≠ st →
      LingoSync.applyRecord st op = op.item :: st.dropLast) :=
  claim4_history_bounded_ordered_evicts_oldest 0 [] _
    (by decide) (by simp [LingoSync.mostRecentFirst])
    (by intro h hx; simp at hx) (by exact ⟨Nat.zero_le 5, trivial⟩)

/-- Claim C5: a record operation leaves the history list unchanged exactly
when the source text is blank, or the translated text is blank, or the
list is non-empty and its head entry carries the same translated text;
a duplicate of a non-head entry is still added. -/
theorem claim5_record_noop_iff (text translated sLang tLang id : String) (ts : Nat)
    (prev : List LingoSync.HistoryItem) :
    LingoSync.saveToHistory text translated sLang tLang id ts prev = prev ↔
      (LingoSync.isBlank text = true ∨ LingoSync.isBlank translated = true ∨
       ∃ h rest, prev = h :: rest ∧ h.translatedText = translated) := by
  constructor
  · intro hEq
    by_contra hR
    push_neg at hR
    obtain ⟨hbt, hbtr, hhead⟩ := hR
    simp only [Bool.not_eq_true] at hbt hbtr
    unfold LingoSync.saveToHistory at hEq
    rw [hbt, hbtr] at hEq
    simp only [Bool.or_self, Bool.false_eq_true, if_false] at hEq
    cases prev with
    | nil => simp [LingoSync.headDup] at hEq
    | cons h rest =>
      have hne : h.translatedText ≠ translated := by
        intro hcontra
        exact (hhead h rest rfl) hcontra
      have hdup : LingoSync.headDup (h :: rest) translated = false := by
        simp [LingoSync.headDup, hne]
      rw [hdup] at hEq
      simp only [Bool.false_eq_true, if_false] at hEq
      rw [show (10 : Nat) = 9 + 1 from rfl, List.take_succ_cons] at hEq
      rw [List.cons_eq_cons] at hEq
      exact hne (by rw [← hEq.1])
  · intro hR
    unfold LingoSync.saveToHistory
    rcases hR with hbt | hbtr | ⟨h, rest, hprev, hsame⟩
    · rw [hbt]; simp
    · rw [hbtr]; simp
    · subst hprev
      have hdup : LingoSync.headDup (h :: rest) translated = true := by
        simp [LingoSync.headDup, hsame]
      rw [hdup]
      split <;> simp

/-- Claim C10: loading the persisted history reproduces a parsable stored
array exactly and in order with no truncation (so more than 10 stored
entries yield more than 10 in memory), and an absent or unparsable stored
value yields the empty list, the function being total (never raising). -/
theorem claim10_load_exact_or_empty
    (parse : String → Option (List LingoSync.HistoryItem)) (s : String)
    (entries : List LingoSync.HistoryItem)
    (hs : ¬ s.isEmpty = true) (hp : parse s = some entries) :
    LingoSync.loadHistory (some s) parse = entries ∧
    LingoSync.loadHistory none parse = [] ∧
    (∀ s2 : String, parse s2 = none → LingoSync.loadHistory (some s2) parse = []) ∧
    (10 < entries.length → 10 < (LingoSync.loadHistory (some s) parse).length) := by
  have hload : LingoSync.loadHistory (some s) parse = entries := by
    simp only [LingoSync.loadHistory]
    rw [if_neg hs, hp]
  refine ⟨hload, rfl, ?_, ?_⟩
  · intro s2 hnone
    simp only [LingoSync.loadHistory]
    rw [hnone]
    split <;> rfl
  · intro hlong
    rw [hload]; exact hlong

/-- Witness for C10 at a concrete input: a parse that yields three entries
under the stored string is reproduced exactly. -/
theorem claim10_witness :
    LingoSync.loadHistory (some "x")
      (fun _ => some [{ id := "a", timestamp := 1, sourceLanguage := "en",
                        targetLanguage := "fr", translatedText := "un" },
                      { id := "b", timestamp := 2, sourceLanguage := "en",
                        targetLanguage := "fr", translatedText := "deux" },
                      { id := "c", timestamp := 3, sourceLanguage := "en",
                        targetLanguage := "fr", translatedText := "trois" }]) =
      [{ id := "a", timestamp := 1, sourceLanguage := "en",
         targetLanguage := "fr", translatedText := "un" },
       { id := "b", timestamp := 2, sourceLanguage := "en",
         targetLanguage := "fr", translatedText := "deux" },
       { id := "c", timestamp := 3, sourceLanguage := "en",
         targetLanguage := "fr", translatedText := "trois" }] :=
  (claim10_load_exact_or_empty _ "x" _ (by decide) rfl).1

namespace LingoSync

/-- The debounce invariant the effect re-establishes after every change:
the single pending timer exists exactly when the trimmed input is
non-blank, and then it captures the current input and language pair. -/
def pendingInv (st : AppState) : Prop :=
  st.pending = (if isBlank st.inputText then none
                else some { text := st.inputText, sourceLang := st.sourceLang,
                            targetLang := st.targetLang })

theorem debounceEffect_pendingInv (st : AppState) :
    pendingInv (debounceEffect st) := by
  unfold pendingInv debounceEffect
  by_cases hb : isBlank st.inputText = true
  · simp [hb]
  · simp [hb]

theorem debounceEffect_calls (st : AppState) :
    (debounceEffect st).calls = st.calls := by
  unfold debounceEffect
  by_cases hb : isBlank st.inputText = true
  · simp [hb]
  · simp [hb]

theorem stepEvent_pendingInv (st : AppState) (e : Event)
    (h : pendingInv st) : pendingInv (stepEvent st e) := by
  cases e with
  | setInput s =>
    simp only [stepEvent]
    split
    · exact h
    · exact debounceEffect_pendingInv _
  | setSource s =>
    simp only [stepEvent]
    split
    · exact h
    · exact debounceEffect_pendingInv _
  | setTarget s =>
    simp only [stepEvent]
    split
    · exact h
    · exact debounceEffect_pendingInv _

theorem stepEvent_calls (st : AppState) (e : Event) :
    (stepEvent st e).calls = st.calls := by
  cases e with
  | setInput s =>
    simp only [stepEvent]
    split
    · rfl
    · exact debounceEffect_calls _
  | setSource s =>
    simp only [stepEvent]
    split
    · rfl
    · exact debounceEffect_calls _
  | setTarget s =>
    simp only [stepEvent]
    split
    · rfl
    · exact debounceEffect_calls _

theorem runEvents_pendingInv (es : List Event) (st : AppState)
    (h : pendingInv st) : pendingInv (runEvents st es) := by
  induction es generalizing st with
  | nil => exact h
  | cons e rest ih => exact ih _ (stepEvent_pendingInv _ _ h)

theorem runEvents_calls (es : List Event) (st : AppState) :
    (runEvents st es).calls = st.calls := by
  induction es generalizing st with
  | nil => rfl
  | cons e rest ih =>
    have hstep : runEvents st (e :: rest) = runEvents (stepEvent st e) rest := rfl
    rw [hstep, ih, stepEvent_calls]

end LingoSync

/-- Claim C2: after any sequence of input or language change events from
the freshly mounted App whose final input is non-blank, exactly one timer
is pending and it captures the final input and language pair; when the
800 ms quiet period then elapses uninterrupted, exactly one translation
call is issued, with the final input text and the final language pair, and
no timer remains pending. -/
theorem claim2_debounce_single_final_call (es : List LingoSync.Event)
    (hne : LingoSync.isBlank (LingoSync.runEvents LingoSync.initState es).inputText
           = false) :
    (LingoSync.runEvents LingoSync.initState es).pending =
      some { text := (LingoSync.runEvents LingoSync.initState es).inputText,
             sourceLang := (LingoSync.runEvents LingoSync.initState es).sourceLang,
             targetLang := (LingoSync.runEvents LingoSync.initState es).targetLang } ∧
    (LingoSync.elapse (LingoSync.runEvents LingoSync.initState es)).calls =
      [{ text := (LingoSync.runEvents LingoSync.initState es).inputText,
         sourceLang := (LingoSync.runEvents LingoSync.initState es).sourceLang,
         targetLang := (LingoSync.runEvents LingoSync.initState es).targetLang }] ∧
    (LingoSync.elapse (LingoSync.runEvents LingoSync.initState es)).pending = none := by
  have hinv := LingoSync.runEvents_pendingInv es LingoSync.initState
    (LingoSync.debounceEffect_pendingInv _)
  unfold LingoSync.pendingInv at hinv
  rw [hne] at hinv
  simp only [Bool.false_eq_true, if_false] at hinv
  have hcalls := LingoSync.runEvents_calls es LingoSync.initState
  have hinit : LingoSync.initState.calls = [] := rfl
  refine ⟨hinv, ?_, ?_⟩
  · unfold LingoSync.elapse
    rw [hinv]
    simp [hcalls, hinit]
  · unfold LingoSync.elapse
    rw [hinv]

/-- Witness for C2 at a concrete input: typing Hello then switching the
target to French issues exactly the one call (Hello, auto, fr). -/
theorem claim2_witness :
    (LingoSync.runEvents LingoSync.initState
       [.setInput "Hel", .setInput "Hello", .setTarget "fr"]).pending =
      some { text := (LingoSync.runEvents LingoSync.initState
                        [.setInput "Hel", .setInput "Hello", .setTarget "fr"]).inputText,
             sourceLang := (LingoSync.runEvents LingoSync.initState
                        [.setInput "Hel", .setInput "Hello", .setTarget "fr"]).sourceLang,
             targetLang := (LingoSync.runEvents LingoSync.initState
                        [.setInput "Hel", .setInput "Hello", .setTarget "fr"]).targetLang } ∧
    (LingoSync.elapse (LingoSync.runEvents LingoSync.initState
       [.setInput "Hel", .setInput "Hello", .setTarget "fr"])).calls =
      [{ text := (LingoSync.runEvents LingoSync.initState
                    [.setInput "Hel", .setInput "Hello", .setTarget "fr"]).inputText,
         sourceLang := (LingoSync.runEvents LingoSync.initState
                    [.setInput "Hel", .setInput "Hello", .setTarget "fr"]).sourceLang,
         targetLang := (LingoSync.runEvents LingoSync.initState
                    [.setInput "Hel", .setInput "Hello", .setTarget "fr"]).targetLang }] ∧
    (LingoSync.elapse (LingoSync.runEvents LingoSync.initState
       [.setInput "Hel", .setInput "Hello", .setTarget "fr"])).pending = none :=
  claim2_debounce_single_final_call
    [.setInput "Hel", .setInput "Hello", .setTarget "fr"] (by decide)

/-- Claim C3: an input change to a blank (empty or whitespace-only) text,
arriving while a translation may still be pending, cancels the pending
timer, clears the output text and the in-flight flag, and issues no
translation call for that input even after the quiet period would have
elapsed. -/
theorem claim3_blank_input_cancels (st : LingoSync.AppState) (s : String)
    (hblank : LingoSync.isBlank s = true) (hchange : s ≠ st.inputText) :
    (LingoSync.stepEvent st (.setInput s)).pending = none ∧
    (LingoSync.stepEvent st (.setInput s)).translatedText = "" ∧
    (LingoSync.stepEvent st (.setInput s)).isTranslating = false ∧
    (LingoSync.stepEvent st (.setInput s)).calls = st.calls ∧
    (LingoSync.elapse (LingoSync.stepEvent st (.setInput s))).calls = st.calls := by
  simp only [LingoSync.stepEvent]
  rw [if_neg hchange]
  unfold LingoSync.debounceEffect
  simp only [hblank, if_true]
  exact ⟨trivial, trivial, trivial, trivial, rfl⟩

/-- Witness for C3 at a concrete input: clearing the input while a timer
for Hello is pending cancels it and fires nothing. -/
theorem claim3_witness :
    (LingoSync.stepEvent
      { inputText := "Hello", translatedText := "Hola", sourceLang := "auto",
        targetLang := "es", isTranslating := false, error := none,
        pending := some { text := "Hello", sourceLang := "auto", targetLang := "es" },
        calls := [] } (.setInput "")).pending = none ∧
    (LingoSync.stepEvent
      { inputText := "Hello", translatedText := "Hola", sourceLang := "auto",
        targetLang := "es", isTranslating := false, error := none,
        pending := some { text := "Hello", sourceLang := "auto", targetLang := "es" },
        calls := [] } (.setInput "")).translatedText = "" ∧
    (LingoSync.stepEvent
      { inputText := "Hello", translatedText := "Hola", sourceLang := "auto",
        targetLang := "es", isTranslating := false, error := none,
        pending := some { text := "Hello", sourceLang := "auto", targetLang := "es" },
        calls := [] } (.setInput "")).isTranslating = false ∧
    (LingoSync.stepEvent
      { inputText := "Hello", translatedText := "Hola", sourceLang := "auto",
        targetLang := "es", isTranslating := false, error := none,
        pending := some { text := "Hello", sourceLang := "auto", targetLang := "es" },
        calls := [] } (.setInput "")).calls = [] ∧
    (LingoSync.elapse (LingoSync.stepEvent
      { inputText := "Hello", translatedText := "Hola", sourceLang := "auto",
        targetLang := "es", isTranslating := false, error := none,
        pending := some { text := "Hello", sourceLang := "auto", targetLang := "es" },
        calls := [] } (.setInput ""))).calls = [] :=
  claim3_blank_input_cancels _ "" (by decide) (by decide)

/-- Claim C9: swapping languages is a no-op when the source language is
the auto sentinel; otherwise it exchanges the source and target language
codes and simultaneously exchanges the input and output texts, all other
state unchanged. -/
theorem claim9_swap_languages (st : LingoSync.AppState) :
    (st.sourceLang = "auto" → LingoSync.handleSwapLanguages st = st) ∧
    (st.sourceLang ≠ "auto" →
      (LingoSync.handleSwapLanguages st).sourceLang = st.targetLang ∧
      (LingoSync.handleSwapLanguages st).targetLang = st.sourceLang ∧
      (LingoSync.handleSwapLanguages st).inputText = st.translatedText ∧
      (LingoSync.handleSwapLanguages st).translatedText = st.inputText ∧
      (LingoSync.handleSwapLanguages st).isTranslating = st.isTranslating ∧
      (LingoSync.handleSwapLanguages st).error = st.error ∧
      (LingoSync.handleSwapLanguages st).calls = st.calls) := by
  unfold LingoSync.handleSwapLanguages
  constructor
  · intro h
    rw [if_pos h]
  · intro h
    rw [if_neg h]
    exact ⟨rfl, rfl, rfl, rfl, rfl, rfl, rfl⟩

/-- Witness for C9 at a concrete input: with English source the swap
exchanges languages and texts; the auto guard is exercised on the same
state with auto source. -/
theorem claim9_witness :
    (LingoSync.handleSwapLanguages
      { inputText := "cat", translatedText := "chat", sourceLang := "en",
        targetLang := "fr", isTranslating := false, error := none,
        pending := none, calls := [] }).sourceLang = "fr" ∧
    (LingoSync.handleSwapLanguages
      { inputText := "cat", translatedText := "chat", sourceLang := "en",
        targetLang := "fr", isTranslating := false, error := none,
        pending := none, calls := [] }).inputText = "chat" ∧
    LingoSync.handleSwapLanguages
      { inputText := "cat", translatedText := "chat", sourceLang := "auto",
        targetLang := "fr", isTranslating := false, error := none,
        pending := none, calls := [] } =
      { inputText := "cat", translatedText := "chat", sourceLang := "auto",
        targetLang := "fr", isTranslating := false, error := none,
        pending := none, calls := [] } :=
  ⟨((claim9_swap_languages _).2 (by decide)).1,
   ((claim9_swap_languages _).2 (by decide)).2.2.1,
   (claim9_swap_languages _).1 (by decide)⟩

namespace LingoSync

theorem join_cons_eq (c : String) (cs : List String) :
    String.join (c :: cs) = c ++ String.join cs := by
  apply String.ext
  simp [String.data_append]

theorem applyChunks_fst (cs : List String) (full : String) (st : TransState) :
    (applyChunks full cs st).1 = full ++ String.join cs := by
  induction cs generalizing full st with
  | nil =>
    rw [show String.join [] = "" from rfl, String.append_empty]
    rfl
  | cons c rest ih =>
    rw [applyChunks, ih, join_cons_eq, String.append_assoc]

theorem applyChunks_snd (cs : List String) (full : String) (st : TransState) :
    (applyChunks full cs st).2 =
      if cs.isEmpty then st
      else { st with translatedText := full ++ String.join cs } := by
  induction cs generalizing full st with
  | nil => simp [applyChunks]
  | cons c rest ih =>
    rw [applyChunks, ih, join_cons_eq]
    cases rest with
    | nil =>
      have hj : String.join [] = "" := rfl
      simp [hj, String.append_empty, String.append_assoc]
    | cons d ds => simp [String.append_assoc]

theorem applyChunks_isTranslating (cs : List String) (full : String)
    (st : TransState) : (applyChunks full cs st).2.isTranslating = st.isTranslating := by
  rw [applyChunks_snd]; split <;> rfl

theorem applyChunks_error (cs : List String) (full : String) (st : TransState) :
    (applyChunks full cs st).2.error = st.error := by
  rw [applyChunks_snd]; split <;> rfl

theorem applyChunks_history (cs : List String) (full : String) (st : TransState) :
    (applyChunks full cs st).2.history = st.history := by
  rw [applyChunks_snd]; split <;> rfl

theorem applyChunks_translatedText (cs : List String) (st : TransState)
    (h : st.translatedText = "") :
    (applyChunks "" cs st).2.translatedText = String.join cs := by
  rw [applyChunks_snd]
  cases cs with
  | nil => simpa using h
  | cons c rest => simp [String.empty_append]

end LingoSync

/-- Claim C6: for a non-blank input, after the i-th delivered chunk the
displayed output is the concatenation of the first i chunks; and on normal
stream completion the displayed output is the concatenation of all the
chunks and that final text is handed to the history cache together with
the input text and the current language pair. -/
theorem claim6_stream_accumulates_and_records
    (text sLang tLang id : String) (ts : Nat) (raw : List (Option String))
    (st : LingoSync.TransState)
    (hne : LingoSync.isBlank text = false) :
    (∀ i : Nat,
      (LingoSync.applyChunks "" ((LingoSync.translateTextStreamDeliver raw).take i)
        (LingoSync.startTranslation st)).2.translatedText =
      String.join ((LingoSync.translateTextStreamDeliver raw).take i)) ∧
    (LingoSync.performTranslation text sLang tLang id ts
      (LingoSync.translateTextStreamDeliver raw) .success st).translatedText =
      String.join (LingoSync.translateTextStreamDeliver raw) ∧
    (LingoSync.performTranslation text sLang tLang id ts
      (LingoSync.translateTextStreamDeliver raw) .success st).history =
      LingoSync.saveToHistory text (String.join (LingoSync.translateTextStreamDeliver raw))
        sLang tLang id ts st.history := by
  refine ⟨?_, ?_, ?_⟩
  · intro i
    exact LingoSync.applyChunks_translatedText _ _ rfl
  · unfold LingoSync.performTranslation
    rw [hne]
    simp only [Bool.false_eq_true, if_false]
    exact LingoSync.applyChunks_translatedText _ _ rfl
  · unfold LingoSync.performTranslation
    rw [hne]
    simp only [Bool.false_eq_true, if_false]
    rw [LingoSync.applyChunks_history, LingoSync.applyChunks_fst]
    have hstart : (LingoSync.startTranslation st).history = st.history := rfl
    rw [hstart, String.empty_append]

/-- Witness for C6 at the concrete scenario of the spec: input Hello from
auto to es with the single streamed chunk Hola displays Hola and records
one history entry (auto, es, Hola). -/
theorem claim6_witness :
    (LingoSync.performTranslation "Hello" "auto" "es" "id1" 7
      (LingoSync.translateTextStreamDeliver [some "Hola"]) .success
      { translatedText := "", isTranslating := false, error := none,
        history := [] }).translatedText =
      String.join (LingoSync.translateTextStreamDeliver [some "Hola"]) ∧
    (LingoSync.performTranslation "Hello" "auto" "es" "id1" 7
      (LingoSync.translateTextStreamDeliver [some "Hola"]) .success
      { translatedText := "", isTranslating := false, error := none,
        history := [] }).history =
      LingoSync.saveToHistory "Hello"
        (String.join (LingoSync.translateTextStreamDeliver [some "Hola"]))
        "auto" "es" "id1" 7 [] ∧
    LingoSync.saveToHistory "Hello"
      (String.join (LingoSync.translateTextStreamDeliver [some "Hola"]))
      "auto" "es" "id1" 7 [] =
      [{ id := "id1", timestamp := 7, sourceLanguage := "auto",
         targetLanguage := "es", translatedText := "Hola" }] :=
  ⟨(claim6_stream_accumulates_and_records "Hello" "auto" "es" "id1" 7 [some "Hola"]
      { translatedText := "", isTranslating := false, error := none,
        history := [] } (by decide)).2.1,
   (claim6_stream_accumulates_and_records "Hello" "auto" "es" "id1" 7 [some "Hola"]
      { translatedText := "", isTranslating := false, error := none,
        history := [] } (by decide)).2.2,
   by decide⟩

/-- Claim C7: a failing translation call for non-blank text leaves the
error state unset when the failure is the cancellation error (AbortError),
sets a non-empty user-visible error message for any other failure, and
clears the in-flight flag in both cases. -/
theorem claim7_failure_error_handling
    (text sLang tLang id : String) (ts : Nat) (chunks : List String)
    (name msg : String) (st : LingoSync.TransState)
    (hne : LingoSync.isBlank text = false) :
    (LingoSync.performTranslation text sLang tLang id ts chunks
      (.failure name msg) st).isTranslating = false ∧
    (name = "AbortError" →
      (LingoSync.performTranslation text sLang tLang id ts chunks
        (.failure name msg) st).error = none) ∧
    (name ≠ "AbortError" →
      ∃ m, (LingoSync.performTranslation text sLang tLang id ts chunks
        (.failure name msg) st).error = some m ∧ m.isEmpty = false) := by
  unfold LingoSync.performTranslation
  rw [hne]
  simp only [Bool.false_eq_true, if_false]
  refine ⟨?_, ?_, ?_⟩
  · trivial
  · intro habort
    rw [if_pos habort, LingoSync.applyChunks_error]
    rfl
  · intro hother
    rw [if_neg hother]
    refine ⟨_, rfl, ?_⟩
    by_cases hm : msg.isEmpty = true
    · rw [if_pos hm]; rfl
    · rw [if_neg hm]
      exact Bool.not_eq_true _ ▸ hm

/-- Witness for C7 at concrete inputs: an AbortError leaves the error
unset; a network error with an empty message yields the non-empty
fallback message; the in-flight flag ends cleared. -/
theorem claim7_witness :
    (LingoSync.performTranslation "Hello" "auto" "es" "id1" 7 []
      (.failure "AbortError" "boom")
      { translatedText := "", isTranslating := false, error := none,
        history := [] }).isTranslating = false ∧
    (LingoSync.performTranslation "Hello" "auto" "es" "id1" 7 []
      (.failure "AbortError" "boom")
      { translatedText := "", isTranslating := false, error := none,
        history := [] }).error = none ∧
    (∃ m, (LingoSync.performTranslation "Hello" "auto" "es" "id1" 7 []
      (.failure "TypeError" "")
      { translatedText := "", isTranslating := false, error := none,
        history := [] }).error = some m ∧ m.isEmpty = false) :=
  ⟨(claim7_failure_error_handling "Hello" "auto" "es" "id1" 7 [] "AbortError" "boom"
      { translatedText := "", isTranslating := false, error := none,
        history := [] } (by decide)).1,
   (claim7_failure_error_handling "Hello" "auto" "es" "id1" 7 [] "AbortError" "boom"
      { translatedText := "", isTranslating := false, error := none,
        history := [] } (by decide)).2.1 rfl,
   (claim7_failure_error_handling "Hello" "auto" "es" "id1" 7 [] "TypeError" ""
      { translatedText := "", isTranslating := false, error := none,
        history := [] } (by decide)).2.2 (by decide)⟩

/-- Claim C1 (refuted by the code): with two overlapping streaming calls,
the first call delivers chunk A, the second call starts and delivers
chunk B (its update is now visible), and then a further chunk C of the
superseded first call arrives: the chunk callback has no staleness check
(translationIdRef is never consulted), so the stale call overwrites the
displayed output of the later call with its own accumulation AC. -/
theorem claim1_stale_request_overwrites_newer :
    (LingoSync.runStream LingoSync.initMachine
      [.start 1, .chunk 1 "A", .start 2, .chunk 2 "B"]).translatedText = "B" ∧
    (LingoSync.runStream LingoSync.initMachine
      [.start 1, .chunk 1 "A", .start 2, .chunk 2 "B", .chunk 1 "C"]).translatedText
      = "AC" :=
  ⟨rfl, rfl⟩

/-- Claim C8 (as stated, refuted by the code): an empty response payload is
not valid structured data matching the schema (translatedText is required),
yet translateText resolves successfully with the translatedText field
absent instead of failing. -/
theorem claim8_counterexample :
    LingoSync.translateText "auto" "es" "" (fun _ => none) =
      .ok { translatedText := none, detectedLanguage := none,
            sourceLanguage := "auto", targetLanguage := "es" } := rfl

/-- Claim C8 amended: translateText fails exactly when the response text is
non-empty and either JSON parsing throws on it or parses it to the null
value (on which the property access then throws); an empty response text
yields a result with both schema fields absent, and a payload parsing to
any non-null value yields a result copying what reading its translatedText
property yields, which may be absent. -/
theorem claim8_amended_fails_on_parse_throw_or_null
    (sLang tLang rt : String) (parse : String → Option LingoSync.JsValue) :
    ((∃ e, LingoSync.translateText sLang tLang rt parse = .error e) ↔
      (rt.isEmpty = false ∧ (parse rt = none ∨ parse rt = some .null))) ∧
    (rt.isEmpty = true →
      LingoSync.translateText sLang tLang rt parse =
        .ok { translatedText := none, detectedLanguage := none,
              sourceLanguage := sLang, targetLanguage := tLang }) ∧
    (∀ t d, rt.isEmpty = false → parse rt = some (.nonNull t d) →
      LingoSync.translateText sLang tLang rt parse =
        .ok { translatedText := t, detectedLanguage := d,
              sourceLanguage := sLang, targetLanguage := tLang }) := by
  refine ⟨⟨?_, ?_⟩, ?_, ?_⟩
  · intro ⟨e, he⟩
    unfold LingoSync.translateText at he
    by_cases hrt : rt.isEmpty = true
    · rw [if_pos hrt] at he
      exact absurd he (by simp)
    · rw [if_neg hrt] at he
      refine ⟨Bool.not_eq_true _ ▸ hrt, ?_⟩
      cases hp : parse rt with
      | none => exact Or.inl rfl
      | some v =>
        cases v with
        | null => exact Or.inr rfl
        | nonNull t d => rw [hp] at he; exact absurd he (by simp)
  · intro ⟨hrt, hp⟩
    unfold LingoSync.translateText
    rw [hrt]
    simp only [Bool.false_eq_true, if_false]
    rcases hp with hp | hp
    · rw [hp]
      exact ⟨_, rfl⟩
    · rw [hp]
      exact ⟨_, rfl⟩
  · intro hrt
    unfold LingoSync.translateText
    rw [if_pos hrt]
  · intro t d hrt hp
    unfold LingoSync.translateText
    rw [hrt]
    simp only [Bool.false_eq_true, if_false]
    rw [hp]

/-- Witness for the amended C8 at concrete inputs: a non-empty unparsable
payload fails; the non-empty payload parsing to null fails; an empty
payload resolves with the fields absent. -/
theorem claim8_amended_witness :
    (∃ e, LingoSync.translateText "auto" "es" "garbage" (fun _ => none) = .error e) ∧
    (∃ e, LingoSync.translateText "auto" "es" "null" (fun _ => some .null) = .error e) ∧
    LingoSync.translateText "en" "fr" "" (fun _ => none) =
      .ok { translatedText := none, detectedLanguage := none,
            sourceLanguage := "en", targetLanguage := "fr" } :=
  ⟨(claim8_amended_fails_on_parse_throw_or_null "auto" "es" "garbage"
      (fun _ => none)).1.mpr ⟨by decide, Or.inl rfl⟩,
   (claim8_amended_fails_on_parse_throw_or_null "auto" "es" "null"
      (fun _ => some .null)).1.mpr ⟨by decide, Or.inr rfl⟩,
   (claim8_amended_fails_on_parse_throw_or_null "en" "fr" ""
      (fun _ => none)).2.1 (by decide)⟩
